import Mathlib

/-!
# Client-side task state of the to-do app (`frontend/src/App.js`)

A shallow embedding of the `App` component's state and handlers.

* The six `useState` cells become the record `AppState`.
* A handler that is a plain function becomes a function `AppState → AppState`.
* An `async` handler runs synchronously up to its single `await axios.…`, at
  which point a request is in flight; when the response arrives the rest of
  the body runs.  This is the type `Step`: either the handler finished without
  a request (`done`), or it threw (`throws`), or it left the state `now`, sent
  `req`, and will `resume` with the remote outcome on the state that is current
  when the response arrives.  Values read from the render closure (`tasks`,
  `title`, `token`) are taken from the state the handler was started in;
  functional updaters `setTasks((prevTasks) => …)` read the state at resume.
* `Step.settle` is an awaited call: nothing else happens between the request
  and its response.
-/

namespace TodoApp

/-! ## Data model -/

/-- A task as it travels on the wire and sits in `tasks`. -/
structure Task where
  id : Nat
  title : String
  completed : Bool
deriving DecidableEq, Repr

/-- The `useState` cells of `App` (lines 8-13). -/
structure AppState where
  tasks : List Task
  title : String
  token : String
  editTaskId : Option Nat
  editedTitle : String
  notice : String
deriving DecidableEq, Repr

/-- Initial values of the `useState` cells. -/
def AppState.initial : AppState :=
  { tasks := [], title := "", token := "", editTaskId := none, editedTitle := "", notice := "" }

/-- The four `axios` calls, with the `Authorization` header and the JSON body. -/
inductive Request where
  | get (token : String)
  | post (token : String) (title : String)
  | put (token : String) (taskId : Nat) (title : String) (completed : Bool)
  | delete (token : String) (taskId : Nat)
deriving DecidableEq, Repr

/-- What an awaited `axios` call produces: the part of `response.data` the
handler reads, or a rejection (caught by the handler's `catch`). -/
inductive Outcome (α : Type) where
  | success (data : α)
  | failure (error : String)
deriving DecidableEq, Repr

/-- Result of starting a handler. -/
inductive Step (α : Type) where
  | done (now : AppState)
  | throws (now : AppState)
  | await (now : AppState) (req : Request) (resume : Outcome α → AppState → AppState)

/-- The request a started handler has sent, if any. -/
def Step.request {α : Type} : Step α → Option Request
  | .done _ => none
  | .throws _ => none
  | .await _ req _ => some req

/-- The state right after the synchronous part of the handler. -/
def Step.now {α : Type} : Step α → AppState
  | .done s => s
  | .throws s => s
  | .await s _ _ => s

/-- The state once the response (if a request was sent) has been handled, with
no other event in between. -/
def Step.settle {α : Type} : Step α → Outcome α → AppState
  | .done s, _ => s
  | .throws s, _ => s
  | .await s _ resume, o => resume o s

/-- A call `f(); g()` where `f` is `async` and not awaited: `g` runs right after
the synchronous part of `f`; an exception inside an `async` function rejects
its promise and does not reach the caller. -/
def Step.thenSync {α : Type} (st : Step α) (g : AppState → AppState) : Step α :=
  match st with
  | .done s => .done (g s)
  | .throws s => .done (g s)
  | .await s req resume => .await (g s) req resume

/-! ## Strings -/

/-- White space and line terminators removed by `String.prototype.trim`. -/
def isJsWhitespace (c : Char) : Bool :=
  let n := c.toNat
  n == 0x09 || n == 0x0A || n == 0x0B || n == 0x0C || n == 0x0D || n == 0x20 ||
  n == 0xA0 || n == 0x1680 || (0x2000 ≤ n && n ≤ 0x200A) || n == 0x2028 ||
  n == 0x2029 || n == 0x202F || n == 0x205F || n == 0x3000 || n == 0xFEFF

/-- The method `trim` of a JavaScript string. -/
def jsTrim (s : String) : String :=
  ⟨((s.data.dropWhile isJsWhitespace).reverse.dropWhile isJsWhitespace).reverse⟩

/-- The method `includes` of a JavaScript string: `sub` occurs in `s`. -/
def jsIncludes (s sub : String) : Bool :=
  s.data.tails.any (fun t => sub.data.isPrefixOf t)

/-! ## Notice classification (lines 145-147) -/

/-- The two CSS classes `notice-success` and `notice-error`. -/
inductive NoticeKind where
  | success
  | error
deriving DecidableEq, Repr

/-- Rendering of the notice: nothing for the empty string, otherwise the class
is decided by whether the message includes `Successfully`. -/
def noticeClass (notice : String) : Option NoticeKind :=
  if notice = "" then none
  else some (if jsIncludes notice "Successfully" then .success else .error)

/-! ## Handlers -/

/-- The body of `fetchTasks` (lines 25-34). -/
def fetchTasks (s : AppState) : Step (List Task) :=
  .await s (.get s.token) fun o cur =>
    match o with
    | .success tasks => { cur with tasks := tasks }
    | .failure _ => cur

/-- The effect on `[token]` (lines 24-39): fetch only for a non-empty token. -/
def tokenEffect (s : AppState) : Step (List Task) :=
  if s.token ≠ "" then fetchTasks s else .done s

/-- Source function `handleLogout` (lines 42-46). -/
def handleLogout (s : AppState) : AppState :=
  { s with token := "", notice := "Successfully logged out." }

/-- Source function `handleCreateTask` (lines 49-67). -/
def handleCreateTask (s : AppState) : Step Task :=
  if s.title = "" then
    .done { s with notice := "Task cannot be empty" }
  else
    .await s (.post s.token s.title) fun o cur =>
      match o with
      | .success task => { cur with tasks := s.tasks ++ [task], title := "", notice := "" }
      | .failure _ => cur

/-- Source function `handleUpdateTask` (lines 70-85). -/
def handleUpdateTask (taskId : Nat) (newTitle : String) (completed : Bool) (s : AppState) :
    Step Unit :=
  .await s (.put s.token taskId newTitle (completed || false)) fun o cur =>
    match o with
    | .success _ =>
      { cur with tasks := cur.tasks.map fun task =>
          if task.id = taskId then
            { task with title := newTitle, completed := completed || false }
          else task }
    | .failure _ => cur

/-- Source function `handleStartEditing` (lines 86-89). -/
def handleStartEditing (taskId : Nat) (taskTitle : String) (s : AppState) : AppState :=
  { s with editTaskId := some taskId, editedTitle := taskTitle }

/-- Source function `handleCancelEditing` (lines 91-94). -/
def handleCancelEditing (s : AppState) : AppState :=
  { s with editTaskId := none, editedTitle := "" }

/-- Source function `handleConfirmEditing` (lines 96-101).  Reading `.completed`
of the `undefined` that `find` returns for an absent id throws before
anything else happens. -/
def handleConfirmEditing (taskId : Nat) (s : AppState) : Step Unit :=
  if jsTrim s.editedTitle ≠ "" then
    match s.tasks.find? (fun task => task.id == taskId) with
    | none => .throws s
    | some task =>
      (handleUpdateTask taskId s.editedTitle task.completed s).thenSync handleCancelEditing
  else
    .done (handleCancelEditing s)

/-- Source function `handleDeleteTask` (lines 104-113). -/
def handleDeleteTask (taskId : Nat) (s : AppState) : Step Unit :=
  .await s (.delete s.token taskId) fun o cur =>
    match o with
    | .success _ => { cur with tasks := s.tasks.filter fun task => task.id != taskId }
    | .failure _ => cur

/-- Source function `handleToggleTaskCompletion` (lines 116-131). -/
def handleToggleTaskCompletion (taskId : Nat) (completed : Bool) (title : String)
    (s : AppState) : Step Unit :=
  .await s (.put s.token taskId title (!completed)) fun o cur =>
    match o with
    | .success _ =>
      { cur with tasks := cur.tasks.map fun task =>
          if task.id = taskId then { task with completed := !completed } else task }
    | .failure _ => cur

/-- The `onChange` of the edit input (line 171): `setEditedTitle`. -/
def setEditedTitle (text : String) (s : AppState) : AppState :=
  { s with editedTitle := text }

/-- The `onChange` of the new-task input (line 157): `setTitle`. -/
def setTitle (text : String) (s : AppState) : AppState :=
  { s with title := text }

/-- The `setToken` handed to `Login` and `Register` (lines 207, 213). -/
def setToken (token : String) (s : AppState) : AppState :=
  { s with token := token }

/-! ## Operations as events

The operations of the task store and of the edit session, each awaited until
its response has been handled.  `createTask title` is the user typing `title` into the new-task input and
pressing the button; `refresh token` is the token being set to `token`, upon
which React runs the `[token]` effect if the value changed. -/

/-- One user-level operation together with the remote outcome it would meet. -/
inductive Event where
  | refresh (token : String) (o : Outcome (List Task))
  | createTask (title : String) (o : Outcome Task)
  | updateTask (taskId : Nat) (title : String) (completed : Bool) (o : Outcome Unit)
  | toggleCompletion (taskId : Nat) (completed : Bool) (title : String) (o : Outcome Unit)
  | deleteTask (taskId : Nat) (o : Outcome Unit)
  | startEdit (taskId : Nat) (title : String)
  | keystroke (text : String)
  | confirm (taskId : Nat) (o : Outcome Unit)
  | cancel
  | logout

/-- The state after one awaited operation. -/
def Event.apply (s : AppState) : Event → AppState
  | .refresh token o =>
    if token = s.token then s else (tokenEffect (setToken token s)).settle o
  | .createTask title o => (handleCreateTask (setTitle title s)).settle o
  | .updateTask taskId title completed o => (handleUpdateTask taskId title completed s).settle o
  | .toggleCompletion taskId completed title o =>
    (handleToggleTaskCompletion taskId completed title s).settle o
  | .deleteTask taskId o => (handleDeleteTask taskId s).settle o
  | .startEdit taskId title => handleStartEditing taskId title s
  | .keystroke text => setEditedTitle text s
  | .confirm taskId o => (handleConfirmEditing taskId s).settle o
  | .cancel => handleCancelEditing s
  | .logout => handleLogout s

/-- The state after a sequence of awaited operations. -/
def run (s : AppState) (evs : List Event) : AppState :=
  evs.foldl Event.apply s

/-- The event is a `createTask`. -/
def Event.isCreate : Event → Bool
  | .createTask _ _ => true
  | _ => false

/-! ## Shared vocabulary for the statements -/

/-- The two observable cells the failure contract speaks about. -/
def SameTasksAndNotice (before after : AppState) : Prop :=
  after.tasks = before.tasks ∧ after.notice = before.notice

/-- The ids of the collection, in order. -/
def AppState.ids (s : AppState) : List Nat :=
  s.tasks.map Task.id

/-- Invariant (b) of the data model: the task being edited is in the collection. -/
def EditTargetPresent (s : AppState) : Prop :=
  ∀ taskId, s.editTaskId = some taskId → taskId ∈ s.ids

/-- Invariant (a) of the data model: no two entries share an id. -/
def UniqueIds (s : AppState) : Prop :=
  s.ids.Nodup

/-- The event does not pull the edited task away: an edit starts on a task of
the collection, a delete that succeeds is not aimed at the edited task, and a
fetch that succeeds returns the edited task. -/
def Event.keepsEditTarget (s : AppState) : Event → Bool
  | .startEdit taskId _ => decide (taskId ∈ s.ids)
  | .deleteTask taskId (.success _) => decide (s.editTaskId ≠ some taskId)
  | .refresh token (.success tasks) =>
    decide (token = s.token) || decide (token = "") ||
      (match s.editTaskId with
       | none => true
       | some taskId => decide (taskId ∈ tasks.map Task.id))
  | _ => true

/-- Every event of the sequence keeps the edit target, each judged in the state
it is applied to. -/
def keepsEditTargetAll : AppState → List Event → Bool
  | _, [] => true
  | s, e :: es => e.keepsEditTarget s && keepsEditTargetAll (e.apply s) es

/-- The server answers a create that reaches it with an id the collection does
not hold yet. -/
def Event.freshId (s : AppState) : Event → Bool
  | .createTask title (.success task) => decide (title = "") || decide (task.id ∉ s.ids)
  | _ => true

/-- Every event of the sequence gets a fresh id, each judged in the state it is
applied to. -/
def freshIdAll : AppState → List Event → Bool
  | _, [] => true
  | s, e :: es => e.freshId s && freshIdAll (e.apply s) es

/-! ## Create: validation -/

/-- The empty-string half of C1: in every state whose title is the empty string,
`handleCreateTask` sends no request, changes nothing but the notice, and sets
the notice to `Task cannot be empty`, which is rendered with the error class. -/
theorem createTask_empty_title_rejected (s : AppState) (o : Outcome Task)
    (h : s.title = "") :
    (handleCreateTask s).request = none ∧
    ((handleCreateTask s).settle o).tasks = s.tasks ∧
    ((handleCreateTask s).settle o).notice = "Task cannot be empty" ∧
    (handleCreateTask s).settle o = { s with notice := "Task cannot be empty" } ∧
    noticeClass ((handleCreateTask s).settle o).notice = some NoticeKind.error := by
  have hc : noticeClass "Task cannot be empty" = some NoticeKind.error := by decide
  simp [handleCreateTask, h, Step.request, Step.settle, hc]

/-- The empty-string half of C1 at the initial state, whose title is empty. -/
theorem createTask_empty_title_rejected_witness :
    AppState.initial.title = "" ∧
    (handleCreateTask AppState.initial).request = none ∧
    ((handleCreateTask AppState.initial).settle (.failure "x")).tasks = [] ∧
    ((handleCreateTask AppState.initial).settle (.failure "x")).notice
      = "Task cannot be empty" :=
  ⟨rfl,
   (createTask_empty_title_rejected AppState.initial (.failure "x") rfl).1,
   (createTask_empty_title_rejected AppState.initial (.failure "x") rfl).2.1,
   (createTask_empty_title_rejected AppState.initial (.failure "x") rfl).2.2.1⟩

/-- C1 at a title of three spaces: the title trims to the empty string, yet
`handleCreateTask` posts it, and on success the task is appended and the notice
is cleared instead of being set to the error message; the edit path, given the
same three spaces as a draft, does trim and sends nothing. -/
theorem createTask_whitespace_title_is_sent :
    jsTrim "   " = "" ∧
    (handleCreateTask { AppState.initial with title := "   ", token := "tok" }).request
      = some (Request.post "tok" "   ") ∧
    ((handleCreateTask { AppState.initial with title := "   ", token := "tok" }).settle
        (.success ⟨1, "   ", false⟩)).tasks = [⟨1, "   ", false⟩] ∧
    ((handleCreateTask { AppState.initial with title := "   ", token := "tok" }).settle
        (.success ⟨1, "   ", false⟩)).notice = "" ∧
    (handleConfirmEditing 1 ⟨[⟨1, "a", false⟩], "", "tok", some 1, "   ", ""⟩).request
      = none := by
  decide

/-! ## Confirm-then-apply -/

/-- C2: for each of the four mutations, in every state and for every failure of the
remote call the handler makes, the state right after sending the request is the
state before, and the state after the failure has the same collection and the
same notice as the state before (it is in fact the same state).  A remote
outcome exists only when a request was sent, which for create is stated as
the handler having a request. -/
theorem remote_failure_leaves_tasks_and_notice (s : AppState) (error : String)
    (taskId : Nat) (title : String) (completed : Bool) :
    ((handleCreateTask s).request ≠ none →
      (handleCreateTask s).now = s ∧
      SameTasksAndNotice s ((handleCreateTask s).settle (.failure error))) ∧
    ((handleUpdateTask taskId title completed s).now = s ∧
      SameTasksAndNotice s ((handleUpdateTask taskId title completed s).settle (.failure error))) ∧
    ((handleToggleTaskCompletion taskId completed title s).now = s ∧
      SameTasksAndNotice s
        ((handleToggleTaskCompletion taskId completed title s).settle (.failure error))) ∧
    ((handleDeleteTask taskId s).now = s ∧
      SameTasksAndNotice s ((handleDeleteTask taskId s).settle (.failure error))) := by
  refine ⟨?_, ?_, ?_, ?_⟩
  · intro h
    by_cases ht : s.title = ""
    · simp [handleCreateTask, ht, Step.request] at h
    · simp [handleCreateTask, ht, Step.now, Step.settle, SameTasksAndNotice]
  · simp [handleUpdateTask, Step.now, Step.settle, SameTasksAndNotice]
  · simp [handleToggleTaskCompletion, Step.now, Step.settle, SameTasksAndNotice]
  · simp [handleDeleteTask, Step.now, Step.settle, SameTasksAndNotice]

/-- Witness for C2: a state with one task, a pending title and a notice; every
one of the four calls fails with a network error. -/
theorem remote_failure_leaves_tasks_and_notice_witness :
    (handleCreateTask ⟨[⟨1, "a", false⟩], "b", "tok", none, "", "old"⟩).request ≠ none ∧
    ((handleCreateTask ⟨[⟨1, "a", false⟩], "b", "tok", none, "", "old"⟩).settle
        (.failure "Network Error")).tasks = [⟨1, "a", false⟩] ∧
    ((handleCreateTask ⟨[⟨1, "a", false⟩], "b", "tok", none, "", "old"⟩).settle
        (.failure "Network Error")).notice = "old" ∧
    ((handleDeleteTask 1 ⟨[⟨1, "a", false⟩], "b", "tok", none, "", "old"⟩).settle
        (.failure "Network Error")).tasks = [⟨1, "a", false⟩] :=
  have h := remote_failure_leaves_tasks_and_notice
    ⟨[⟨1, "a", false⟩], "b", "tok", none, "", "old"⟩ "Network Error" 1 "c" true
  ⟨by decide, (h.1 (by decide)).2.1, (h.1 (by decide)).2.2, h.2.2.2.2.1⟩

/-! ## Delete -/

/-- C3: `handleDeleteTask taskId` sends the delete request for `taskId` and on
success leaves a collection that is the old one with the entries of that id
taken out: it is a sublist of the old collection (entries unmodified, relative
order kept), holds no entry with that id, and holds every other entry as often
as before.  Nothing else in the state changes. -/
theorem deleteTask_removes_exactly (s : AppState) (taskId : Nat) :
    (handleDeleteTask taskId s).request = some (Request.delete s.token taskId) ∧
    ((handleDeleteTask taskId s).settle (.success ())).tasks.Sublist s.tasks ∧
    (∀ t ∈ ((handleDeleteTask taskId s).settle (.success ())).tasks, t.id ≠ taskId) ∧
    (∀ t : Task, t.id ≠ taskId →
      ((handleDeleteTask taskId s).settle (.success ())).tasks.count t = s.tasks.count t) ∧
    (∀ t : Task, t ∈ ((handleDeleteTask taskId s).settle (.success ())).tasks ↔
      t ∈ s.tasks ∧ t.id ≠ taskId) ∧
    (handleDeleteTask taskId s).settle (.success ())
      = { s with tasks := ((handleDeleteTask taskId s).settle (.success ())).tasks } := by
  refine ⟨rfl, ?_, ?_, ?_, ?_, rfl⟩
  · exact List.filter_sublist _
  · intro t ht
    simp [handleDeleteTask, Step.settle] at ht
    exact ht.2
  · intro t ht
    simp only [handleDeleteTask, Step.settle]
    rw [List.count_filter]
    simpa using ht
  · intro t
    simp [handleDeleteTask, Step.settle]

/-- Witness for C3: deleting id 2 from three tasks keeps the first and the third
in order. -/
theorem deleteTask_removes_exactly_witness :
    ((handleDeleteTask 2
        ⟨[⟨1, "a", false⟩, ⟨2, "b", true⟩, ⟨3, "c", false⟩], "", "tok", none, "", ""⟩).settle
      (.success ())).tasks.count ⟨3, "c", false⟩ = 1 ∧
    (⟨2, "b", true⟩ : Task) ∉ ((handleDeleteTask 2
        ⟨[⟨1, "a", false⟩, ⟨2, "b", true⟩, ⟨3, "c", false⟩], "", "tok", none, "", ""⟩).settle
      (.success ())).tasks :=
  have h := deleteTask_removes_exactly
    ⟨[⟨1, "a", false⟩, ⟨2, "b", true⟩, ⟨3, "c", false⟩], "", "tok", none, "", ""⟩ 2
  ⟨(h.2.2.2.1 ⟨3, "c", false⟩ (by decide)).trans (by decide),
   fun hm => h.2.2.1 ⟨2, "b", true⟩ hm rfl⟩

/-! ## Create: success -/

/-- C4: with a non-empty title, `handleCreateTask` posts the title, and on success
the collection is the old one with the returned task appended as the last
element (one longer, the earlier entries as before), and the notice is
cleared, so that no notice is rendered. -/
theorem createTask_appends_and_clears_notice (s : AppState) (task : Task)
    (h : s.title ≠ "") :
    (handleCreateTask s).request = some (Request.post s.token s.title) ∧
    ((handleCreateTask s).settle (.success task)).tasks = s.tasks ++ [task] ∧
    ((handleCreateTask s).settle (.success task)).tasks.length = s.tasks.length + 1 ∧
    ((handleCreateTask s).settle (.success task)).tasks.getLast? = some task ∧
    ((handleCreateTask s).settle (.success task)).tasks.take s.tasks.length = s.tasks ∧
    ((handleCreateTask s).settle (.success task)).notice = "" ∧
    noticeClass ((handleCreateTask s).settle (.success task)).notice = none := by
  simp [handleCreateTask, h, Step.request, Step.settle, noticeClass]

/-- Witness for C4: the scenario of the specification, `Buy milk` into the empty
collection. -/
theorem createTask_appends_and_clears_notice_witness :
    ((handleCreateTask ⟨[], "Buy milk", "tok", none, "", "Task cannot be empty"⟩).settle
        (.success ⟨1, "Buy milk", false⟩)).tasks = [⟨1, "Buy milk", false⟩] ∧
    ((handleCreateTask ⟨[], "Buy milk", "tok", none, "", "Task cannot be empty"⟩).settle
        (.success ⟨1, "Buy milk", false⟩)).notice = "" :=
  have h := createTask_appends_and_clears_notice
    ⟨[], "Buy milk", "tok", none, "", "Task cannot be empty"⟩ ⟨1, "Buy milk", false⟩
    (by decide)
  ⟨h.2.1, h.2.2.2.2.2.1⟩

/-! ## Update -/

/-- C8: `handleUpdateTask taskId title completed` sends an update carrying both
fields, and on success the collection has the same length and the same ids at
the same positions; at every position an entry with that id now has the
supplied title and completed value, and any other entry is as before. -/
theorem updateTask_sets_fields_in_place (s : AppState) (taskId : Nat) (title : String)
    (completed : Bool) :
    (handleUpdateTask taskId title completed s).request
      = some (Request.put s.token taskId title completed) ∧
    ((handleUpdateTask taskId title completed s).settle (.success ())).tasks.length
      = s.tasks.length ∧
    ((handleUpdateTask taskId title completed s).settle (.success ())).ids = s.ids ∧
    (∀ (i : Nat) (t : Task), s.tasks[i]? = some t →
      ((handleUpdateTask taskId title completed s).settle (.success ())).tasks[i]?
        = some (if t.id = taskId then ⟨taskId, title, completed⟩ else t)) := by
  refine ⟨by simp [handleUpdateTask, Step.request], by simp [handleUpdateTask, Step.settle],
    ?_, ?_⟩
  · simp only [handleUpdateTask, Step.settle, AppState.ids, List.map_map]
    apply List.map_congr_left
    intro t _
    by_cases ht : t.id = taskId <;> simp [ht]
  · intro i t hi
    simp only [handleUpdateTask, Step.settle, List.getElem?_map, hi, Option.map_some']
    by_cases ht : t.id = taskId <;> simp [ht]

/-- Witness for C8: renaming and completing task 2 of three. -/
theorem updateTask_sets_fields_in_place_witness :
    ((handleUpdateTask 2 "z" true
        ⟨[⟨1, "a", false⟩, ⟨2, "b", false⟩, ⟨3, "c", false⟩], "", "tok", none, "", ""⟩).settle
      (.success ())).tasks[1]? = some ⟨2, "z", true⟩ ∧
    ((handleUpdateTask 2 "z" true
        ⟨[⟨1, "a", false⟩, ⟨2, "b", false⟩, ⟨3, "c", false⟩], "", "tok", none, "", ""⟩).settle
      (.success ())).tasks[2]? = some ⟨3, "c", false⟩ :=
  have h := updateTask_sets_fields_in_place
    ⟨[⟨1, "a", false⟩, ⟨2, "b", false⟩, ⟨3, "c", false⟩], "", "tok", none, "", ""⟩ 2 "z" true
  ⟨h.2.2.2 1 ⟨2, "b", false⟩ rfl, h.2.2.2 2 ⟨3, "c", false⟩ rfl⟩

/-! ## Toggle -/

/-- C5 (amended): `handleToggleTaskCompletion taskId c title` followed, once it has
succeeded, by the call with the value now shown, `!c`, leaves every entry of
that id with `completed = c`, changes no title and no other entry, and gives
back the very collection it started from when the entries of that id had
`completed = c` to begin with. -/
theorem toggle_then_toggle_back (s : AppState) (taskId : Nat) (c : Bool) (title : String) :
    (∀ t ∈ ((handleToggleTaskCompletion taskId (!c) title
          ((handleToggleTaskCompletion taskId c title s).settle (.success ()))).settle
        (.success ())).tasks, t.id = taskId → t.completed = c) ∧
    ((∀ t ∈ s.tasks, t.id = taskId → t.completed = c) →
      ((handleToggleTaskCompletion taskId (!c) title
          ((handleToggleTaskCompletion taskId c title s).settle (.success ()))).settle
        (.success ())).tasks = s.tasks) := by
  constructor
  · intro t ht
    simp only [handleToggleTaskCompletion, Step.settle, List.map_map, List.mem_map] at ht
    obtain ⟨u, _, rfl⟩ := ht
    intro hid
    by_cases hu : u.id = taskId <;> simp_all
  · intro h
    simp only [handleToggleTaskCompletion, Step.settle, List.map_map]
    conv_rhs => rw [← List.map_id s.tasks]
    apply List.map_congr_left
    intro u hu
    by_cases hid : u.id = taskId
    · have := h u hu hid
      cases u
      simp_all
    · simp [hid]

/-- Witness for C5 (amended): task 1 is open; marking it complete and then
incomplete restores the collection. -/
theorem toggle_then_toggle_back_witness :
    ((handleToggleTaskCompletion 1 (!false) "a"
        ((handleToggleTaskCompletion 1 false "a"
          ⟨[⟨1, "a", false⟩, ⟨2, "b", true⟩], "", "tok", none, "", ""⟩).settle
          (.success ()))).settle
      (.success ())).tasks = [⟨1, "a", false⟩, ⟨2, "b", true⟩] :=
  (toggle_then_toggle_back ⟨[⟨1, "a", false⟩, ⟨2, "b", true⟩], "", "tok", none, "", ""⟩
    1 false "a").2 (by decide)

/-- C5 (as stated) fails: the same call `handleToggleTaskCompletion 1 false "a"` made
twice on an open task leaves it completed, not back at `false`. -/
theorem toggle_same_call_twice_not_involutive :
    ((handleToggleTaskCompletion 1 false "a"
        ((handleToggleTaskCompletion 1 false "a"
          ⟨[⟨1, "a", false⟩], "", "tok", none, "", ""⟩).settle (.success ()))).settle
      (.success ())).tasks = [⟨1, "a", true⟩] := by
  decide

/-- C6 (amended): `handleToggleTaskCompletion taskId completed title` sends the very
request that `handleUpdateTask taskId title (!completed)` sends; on success the
two collections have the same ids and the same completed values position by
position, and they are equal whenever `title` is the title of every entry of
that id, which is what the toggle button passes. -/
theorem toggle_matches_update_on_current_title (s : AppState) (taskId : Nat)
    (completed : Bool) (title : String) :
    (handleToggleTaskCompletion taskId completed title s).request
      = (handleUpdateTask taskId title (!completed) s).request ∧
    ((handleToggleTaskCompletion taskId completed title s).settle (.success ())).ids
      = ((handleUpdateTask taskId title (!completed) s).settle (.success ())).ids ∧
    ((handleToggleTaskCompletion taskId completed title s).settle (.success ())).tasks.map
        Task.completed
      = ((handleUpdateTask taskId title (!completed) s).settle (.success ())).tasks.map
        Task.completed ∧
    ((∀ t ∈ s.tasks, t.id = taskId → t.title = title) →
      ((handleToggleTaskCompletion taskId completed title s).settle (.success ())).tasks
        = ((handleUpdateTask taskId title (!completed) s).settle (.success ())).tasks) := by
  refine ⟨by simp [handleToggleTaskCompletion, handleUpdateTask, Step.request], ?_, ?_, ?_⟩
  · simp only [handleToggleTaskCompletion, handleUpdateTask, Step.settle, AppState.ids,
      List.map_map]
    apply List.map_congr_left
    intro u _
    by_cases hid : u.id = taskId <;> simp [hid]
  · simp only [handleToggleTaskCompletion, handleUpdateTask, Step.settle, List.map_map]
    apply List.map_congr_left
    intro u _
    by_cases hid : u.id = taskId <;> simp [hid]
  · intro h
    simp only [handleToggleTaskCompletion, handleUpdateTask, Step.settle]
    apply List.map_congr_left
    intro u hu
    by_cases hid : u.id = taskId
    · have := h u hu hid
      simp [hid, this]
    · simp [hid]

/-- Witness for C6 (amended): the toggle button of the open task `Buy milk`. -/
theorem toggle_matches_update_on_current_title_witness :
    ((handleToggleTaskCompletion 1 false "Buy milk"
        ⟨[⟨1, "Buy milk", false⟩], "", "tok", none, "", ""⟩).settle (.success ())).tasks
      = ((handleUpdateTask 1 "Buy milk" (!false)
        ⟨[⟨1, "Buy milk", false⟩], "", "tok", none, "", ""⟩).settle (.success ())).tasks :=
  (toggle_matches_update_on_current_title ⟨[⟨1, "Buy milk", false⟩], "", "tok", none, "", ""⟩
    1 false "Buy milk").2.2.2 (by decide)

/-- C6 (as stated) fails: called with a title other than the task's own, the toggle
keeps the old title where the update installs the new one, although both send
the same request. -/
theorem toggle_differs_from_update_on_other_title :
    (handleToggleTaskCompletion 1 false "b"
        ⟨[⟨1, "a", false⟩], "", "tok", none, "", ""⟩).request
      = (handleUpdateTask 1 "b" (!false) ⟨[⟨1, "a", false⟩], "", "tok", none, "", ""⟩).request ∧
    ((handleToggleTaskCompletion 1 false "b"
        ⟨[⟨1, "a", false⟩], "", "tok", none, "", ""⟩).settle (.success ())).tasks
      = [⟨1, "a", true⟩] ∧
    ((handleUpdateTask 1 "b" (!false)
        ⟨[⟨1, "a", false⟩], "", "tok", none, "", ""⟩).settle (.success ())).tasks
      = [⟨1, "b", true⟩] ∧
    ((handleToggleTaskCompletion 1 false "b"
        ⟨[⟨1, "a", false⟩], "", "tok", none, "", ""⟩).settle (.success ())).tasks
      ≠ ((handleUpdateTask 1 "b" (!false)
        ⟨[⟨1, "a", false⟩], "", "tok", none, "", ""⟩).settle (.success ())).tasks := by
  decide

/-! ## Edit session: confirm -/

/-- C7: when the task `taskId` is in the collection, `handleConfirmEditing taskId`
sends a request exactly when the trimmed draft is non-empty; in that case it
is the call `handleUpdateTask taskId draft c` with `c` the completed value of
the task found for that id (same request, same effect on the collection); in
both cases the edit session is idle with an empty draft, right after the
handler and after the response; with a blank draft the collection is
unchanged whatever the remote would have answered. -/
theorem confirm_updates_iff_draft_not_blank (s : AppState) (taskId : Nat)
    (hpresent : taskId ∈ s.ids) :
    ((handleConfirmEditing taskId s).request ≠ none ↔ jsTrim s.editedTitle ≠ "") ∧
    (jsTrim s.editedTitle ≠ "" →
      ∃ task, s.tasks.find? (fun t => t.id == taskId) = some task ∧ task ∈ s.tasks ∧
        task.id = taskId ∧
        handleConfirmEditing taskId s
          = (handleUpdateTask taskId s.editedTitle task.completed s).thenSync
              handleCancelEditing ∧
        (handleConfirmEditing taskId s).request
          = some (Request.put s.token taskId s.editedTitle task.completed) ∧
        ∀ o, ((handleConfirmEditing taskId s).settle o).tasks
          = ((handleUpdateTask taskId s.editedTitle task.completed s).settle o).tasks) ∧
    ((handleConfirmEditing taskId s).now.editTaskId = none ∧
      (handleConfirmEditing taskId s).now.editedTitle = "") ∧
    (∀ o, ((handleConfirmEditing taskId s).settle o).editTaskId = none ∧
      ((handleConfirmEditing taskId s).settle o).editedTitle = "") ∧
    (jsTrim s.editedTitle = "" →
      (handleConfirmEditing taskId s).now.tasks = s.tasks ∧
      ∀ o, ((handleConfirmEditing taskId s).settle o).tasks = s.tasks) := by
  obtain ⟨task, hfind⟩ : ∃ task, s.tasks.find? (fun t => t.id == taskId) = some task := by
    simp only [AppState.ids, List.mem_map] at hpresent
    obtain ⟨t, ht, hid⟩ := hpresent
    cases hf : s.tasks.find? (fun t => t.id == taskId) with
    | none =>
      rw [List.find?_eq_none] at hf
      exact absurd (by simpa using hid) (hf t ht)
    | some task => exact ⟨task, rfl⟩
  have hmem : task ∈ s.tasks := List.mem_of_find?_eq_some hfind
  have hid : task.id = taskId := by simpa using List.find?_some hfind
  by_cases hb : jsTrim s.editedTitle = ""
  · simp [handleConfirmEditing, hb, Step.request, Step.now, Step.settle, handleCancelEditing]
  · refine ⟨?_, ?_, ?_, ?_, ?_⟩
    · simp [handleConfirmEditing, hb, hfind, handleUpdateTask, Step.thenSync, Step.request]
    · intro _
      refine ⟨task, hfind, hmem, hid, ?_, ?_, ?_⟩
      · simp [handleConfirmEditing, hb, hfind]
      · simp [handleConfirmEditing, hb, hfind, handleUpdateTask, Step.thenSync, Step.request]
      · intro o
        cases o <;>
          simp [handleConfirmEditing, hb, hfind, handleUpdateTask, Step.thenSync, Step.settle,
            handleCancelEditing]
    · simp [handleConfirmEditing, hb, hfind, handleUpdateTask, Step.thenSync, Step.now,
        handleCancelEditing]
    · intro o
      cases o <;>
        simp [handleConfirmEditing, hb, hfind, handleUpdateTask, Step.thenSync, Step.settle,
          handleCancelEditing]
    · intro h
      exact absurd h hb

/-- Witness for C7: the edit of `Buy milk` (completed) to `Buy milk 2%` from the
scenario of the specification sends the update with `completed = true`. -/
theorem confirm_updates_iff_draft_not_blank_witness :
    (1 : Nat) ∈ (AppState.mk [⟨1, "Buy milk", true⟩] "" "tok" (some 1) "Buy milk 2%" "").ids ∧
    ((handleConfirmEditing 1
        ⟨[⟨1, "Buy milk", true⟩], "", "tok", some 1, "Buy milk 2%", ""⟩).request ≠ none ↔
      jsTrim "Buy milk 2%" ≠ "") ∧
    ((handleConfirmEditing 1
        ⟨[⟨1, "Buy milk", true⟩], "", "tok", some 1, "Buy milk 2%", ""⟩).settle
      (.success ())).editTaskId = none :=
  have h := confirm_updates_iff_draft_not_blank
    ⟨[⟨1, "Buy milk", true⟩], "", "tok", some 1, "Buy milk 2%", ""⟩ 1 (by decide)
  ⟨by decide, h.1, (h.2.2.2.1 (.success ())).1⟩

/-! ## Invariants over sequences of operations -/

/-- Both update handlers rewrite entries in place and never touch an id. -/
theorem map_id_of_id_preserving (l : List Task) (f : Task → Task)
    (hf : ∀ t, (f t).id = t.id) : (l.map f).map Task.id = l.map Task.id := by
  rw [List.map_map]
  exact List.map_congr_left fun t _ => hf t

/-- A settled update leaves the ids and the edit cells as they were. -/
theorem update_settle_frame (s : AppState) (taskId : Nat) (title : String) (completed : Bool)
    (o : Outcome Unit) :
    ((handleUpdateTask taskId title completed s).settle o).ids = s.ids ∧
    ((handleUpdateTask taskId title completed s).settle o).editTaskId = s.editTaskId := by
  cases o with
  | failure e => exact ⟨rfl, rfl⟩
  | success u =>
    refine ⟨?_, rfl⟩
    simp only [handleUpdateTask, Step.settle, AppState.ids]
    apply map_id_of_id_preserving
    intro t
    by_cases ht : t.id = taskId <;> simp [ht]

/-- A settled toggle leaves the ids and the edit cells as they were. -/
theorem toggle_settle_frame (s : AppState) (taskId : Nat) (completed : Bool) (title : String)
    (o : Outcome Unit) :
    ((handleToggleTaskCompletion taskId completed title s).settle o).ids = s.ids ∧
    ((handleToggleTaskCompletion taskId completed title s).settle o).editTaskId
      = s.editTaskId := by
  cases o with
  | failure e => exact ⟨rfl, rfl⟩
  | success u =>
    refine ⟨?_, rfl⟩
    simp only [handleToggleTaskCompletion, Step.settle, AppState.ids]
    apply map_id_of_id_preserving
    intro t
    by_cases ht : t.id = taskId <;> simp [ht]

/-- A settled confirm either leaves the state alone (it threw) or ends the edit. -/
theorem confirm_settle_frame (s : AppState) (taskId : Nat) (o : Outcome Unit) :
    (handleConfirmEditing taskId s).settle o = s ∨
    ((handleConfirmEditing taskId s).settle o).editTaskId = none := by
  unfold handleConfirmEditing
  by_cases hb : jsTrim s.editedTitle = ""
  · right
    simp [hb, Step.settle, handleCancelEditing]
  · cases hf : s.tasks.find? (fun task => task.id == taskId) with
    | none =>
      left
      simp [hb, Step.settle]
    | some task =>
      right
      cases o <;> simp [hb, handleUpdateTask, Step.thenSync, Step.settle, handleCancelEditing]

/-- One guarded operation keeps the edit target in the collection. -/
theorem apply_keeps_edit_target (s : AppState) (e : Event)
    (hinv : EditTargetPresent s) (hguard : e.keepsEditTarget s = true) :
    EditTargetPresent (e.apply s) := by
  cases e with
  | refresh token o =>
    simp only [Event.apply]
    by_cases ht : token = s.token
    · simpa [ht] using hinv
    · rw [if_neg ht]
      by_cases he : token = ""
      · intro taskId hid
        have hs : (tokenEffect (setToken token s)).settle o = setToken token s := by
          simp [tokenEffect, setToken, he, Step.settle]
        rw [hs] at hid ⊢
        exact hinv taskId hid
      · cases o with
        | failure err =>
          intro taskId hid
          have hs : (tokenEffect (setToken token s)).settle (.failure err)
              = setToken token s := by
            simp [tokenEffect, fetchTasks, setToken, he, Step.settle]
          rw [hs] at hid ⊢
          exact hinv taskId hid
        | success tasks =>
          intro taskId hid
          have hs : (tokenEffect (setToken token s)).settle (.success tasks)
              = { setToken token s with tasks := tasks } := by
            simp [tokenEffect, fetchTasks, setToken, he, Step.settle]
          rw [hs] at hid ⊢
          have hid' : s.editTaskId = some taskId := hid
          simp only [Event.keepsEditTarget, ht, he, hid', decide_False, Bool.false_or,
            decide_eq_true_eq] at hguard
          exact hguard
  | createTask title o =>
    intro taskId hid
    simp only [Event.apply, handleCreateTask, setTitle] at hid ⊢
    by_cases ht : title = ""
    · simp only [ht, if_true, Step.settle, AppState.ids] at hid ⊢
      exact hinv taskId hid
    · cases o with
      | failure err =>
        simp only [ht, if_false, Step.settle, AppState.ids] at hid ⊢
        exact hinv taskId hid
      | success task =>
        simp only [ht, if_false, Step.settle, AppState.ids, List.map_append] at hid ⊢
        exact List.mem_append_left _ (hinv taskId hid)
  | updateTask taskId title completed o =>
    intro i hid
    simp only [Event.apply] at hid ⊢
    rw [(update_settle_frame s taskId title completed o).1]
    rw [(update_settle_frame s taskId title completed o).2] at hid
    exact hinv i hid
  | toggleCompletion taskId completed title o =>
    intro i hid
    simp only [Event.apply] at hid ⊢
    rw [(toggle_settle_frame s taskId completed title o).1]
    rw [(toggle_settle_frame s taskId completed title o).2] at hid
    exact hinv i hid
  | deleteTask taskId o =>
    cases o with
    | failure err => exact hinv
    | success u =>
      intro i hid
      simp only [Event.apply, handleDeleteTask, Step.settle, AppState.ids] at hid ⊢
      simp only [Event.keepsEditTarget, decide_eq_true_eq] at hguard
      have hne : i ≠ taskId := fun h => hguard (h ▸ hid)
      have hmem := hinv i hid
      simp only [AppState.ids, List.mem_map] at hmem ⊢
      obtain ⟨t, ht, rfl⟩ := hmem
      exact ⟨t, by simpa using ⟨ht, hne⟩, rfl⟩
  | startEdit taskId title =>
    intro i hid
    simp only [Event.apply, handleStartEditing, Option.some.injEq] at hid
    simp only [Event.keepsEditTarget, decide_eq_true_eq] at hguard
    subst hid
    exact hguard
  | keystroke text => exact hinv
  | confirm taskId o =>
    simp only [Event.apply]
    rcases confirm_settle_frame s taskId o with h | h
    · rw [h]
      exact hinv
    · intro i hid
      rw [h] at hid
      exact absurd hid (by simp)
  | cancel =>
    intro i hid
    simp [Event.apply, handleCancelEditing] at hid
  | logout => exact hinv

/-- A guarded sequence keeps the edit target in the collection. -/
theorem run_keeps_edit_target (evs : List Event) :
    ∀ s : AppState, EditTargetPresent s → keepsEditTargetAll s evs = true →
      EditTargetPresent (run s evs) := by
  induction evs with
  | nil => intro s h _; exact h
  | cons e es ih =>
    intro s h hg
    simp only [keepsEditTargetAll, Bool.and_eq_true] at hg
    exact ih (e.apply s) (apply_keeps_edit_target s e h hg.1) hg.2

/-- C9 (amended): in every state reached from the initial state by a sequence of
refresh, createTask, updateTask, toggleCompletion, deleteTask, startEdit,
keystroke, confirm, cancel and logout in which an edit is started only on a
task of the collection, no successful delete is aimed at the task being
edited, and no successful fetch returns a collection without it, the id being
edited, if set, is the id of a task in the collection. -/
theorem edit_target_present_on_guarded_runs (evs : List Event)
    (hguard : keepsEditTargetAll AppState.initial evs = true) :
    EditTargetPresent (run AppState.initial evs) :=
  run_keeps_edit_target evs AppState.initial (fun _ h => absurd h (by simp [AppState.initial]))
    hguard

/-- Witness for C9 (amended): log in, create `Buy milk`, edit it, type, confirm. -/
theorem edit_target_present_on_guarded_runs_witness :
    keepsEditTargetAll AppState.initial
      [.refresh "tok" (.success []), .createTask "Buy milk" (.success ⟨1, "Buy milk", false⟩),
       .startEdit 1 "Buy milk", .keystroke "Buy milk 2%"] = true ∧
    EditTargetPresent (run AppState.initial
      [.refresh "tok" (.success []), .createTask "Buy milk" (.success ⟨1, "Buy milk", false⟩),
       .startEdit 1 "Buy milk", .keystroke "Buy milk 2%"]) :=
  ⟨by decide, edit_target_present_on_guarded_runs _ (by decide)⟩

/-- C9 (as stated) fails: log in, create task 1, start editing it, delete it; the
delete succeeds, the collection is empty and the edit session still points at
task 1. -/
theorem edit_target_lost_after_delete :
    (run AppState.initial
      [.refresh "tok" (.success []), .createTask "Buy milk" (.success ⟨1, "Buy milk", false⟩),
       .startEdit 1 "Buy milk", .deleteTask 1 (.success ())]).editTaskId = some 1 ∧
    (run AppState.initial
      [.refresh "tok" (.success []), .createTask "Buy milk" (.success ⟨1, "Buy milk", false⟩),
       .startEdit 1 "Buy milk", .deleteTask 1 (.success ())]).tasks = [] ∧
    ¬ EditTargetPresent (run AppState.initial
      [.refresh "tok" (.success []), .createTask "Buy milk" (.success ⟨1, "Buy milk", false⟩),
       .startEdit 1 "Buy milk", .deleteTask 1 (.success ())]) :=
  ⟨by decide, by decide, fun h => absurd (h 1 (by decide)) (by decide)⟩

/-- One create answered with a fresh id keeps the ids distinct. -/
theorem apply_create_keeps_unique_ids (s : AppState) (e : Event)
    (hinv : UniqueIds s) (hcreate : e.isCreate = true) (hfresh : e.freshId s = true) :
    UniqueIds (e.apply s) := by
  cases e with
  | createTask title o =>
    simp only [UniqueIds, Event.apply, handleCreateTask, setTitle] at hinv ⊢
    by_cases ht : title = ""
    · simpa [ht, Step.settle, AppState.ids] using hinv
    · cases o with
      | failure err => simpa [ht, Step.settle, AppState.ids] using hinv
      | success task =>
        simp only [Event.freshId, ht, decide_False, Bool.false_or, decide_eq_true_eq] at hfresh
        simp only [ht, if_false, Step.settle, AppState.ids, List.map_append, List.map_cons,
          List.map_nil]
        rw [List.nodup_append]
        refine ⟨hinv, List.nodup_singleton _, ?_⟩
        intro a ha hb
        simp only [List.mem_singleton] at hb
        exact hfresh (hb ▸ ha)
  | _ => simp [Event.isCreate] at hcreate

/-- A sequence of creates, each answered with a fresh id, keeps the ids distinct. -/
theorem run_creates_keep_unique_ids (evs : List Event) :
    ∀ s : AppState, UniqueIds s → (∀ e ∈ evs, e.isCreate = true) → freshIdAll s evs = true →
      UniqueIds (run s evs) := by
  induction evs with
  | nil => intro s h _ _; exact h
  | cons e es ih =>
    intro s h hc hf
    simp only [freshIdAll, Bool.and_eq_true] at hf
    exact ih (e.apply s)
      (apply_create_keeps_unique_ids s e h (hc e (List.mem_cons_self _ _)) hf.1)
      (fun e' he' => hc e' (List.mem_cons_of_mem _ he')) hf.2

/-- C10 (amended): starting from any state with the empty collection, after every
sequence of createTask operations, with any titles, in which each create that
reaches the server is answered with an id the collection does not hold yet (or
fails), the collection has no two entries with the same id. -/
theorem creates_with_fresh_ids_keep_ids_unique (s : AppState) (evs : List Event)
    (hempty : s.tasks = []) (hcreates : ∀ e ∈ evs, e.isCreate = true)
    (hfresh : freshIdAll s evs = true) :
    UniqueIds (run s evs) :=
  run_creates_keep_unique_ids evs s (by simp [UniqueIds, AppState.ids, hempty]) hcreates hfresh

/-- Witness for C10 (amended): two creates answered with ids 1 and 2, and a third
one that fails. -/
theorem creates_with_fresh_ids_keep_ids_unique_witness :
    (run AppState.initial
      [.createTask "a" (.success ⟨1, "a", false⟩), .createTask "b" (.success ⟨2, "b", false⟩),
       .createTask "c" (.failure "Network Error")]).ids = [1, 2] ∧
    UniqueIds (run AppState.initial
      [.createTask "a" (.success ⟨1, "a", false⟩), .createTask "b" (.success ⟨2, "b", false⟩),
       .createTask "c" (.failure "Network Error")]) :=
  ⟨by decide, creates_with_fresh_ids_keep_ids_unique AppState.initial _ rfl (by decide)
    (by decide)⟩

/-- C10 (as stated) fails: two creates from the empty collection, both answered by
the server with id 1, leave two entries with id 1. -/
theorem duplicate_id_after_two_creates :
    (run AppState.initial
      [.createTask "a" (.success ⟨1, "a", false⟩),
       .createTask "b" (.success ⟨1, "b", false⟩)]).tasks
      = [⟨1, "a", false⟩, ⟨1, "b", false⟩] ∧
    ¬ UniqueIds (run AppState.initial
      [.createTask "a" (.success ⟨1, "a", false⟩),
       .createTask "b" (.success ⟨1, "b", false⟩)]) :=
  ⟨by decide, by unfold UniqueIds; decide⟩

end TodoApp
